import Mathlib

/-!
Shallow embedding of the colorGifts backend (`src/app.py`): the startup
color-index build (`load_initial_data`) and the search pipeline
(`search_gifts`), together with theorems checking the specification's
claims about them.

Modelling conventions:
* Python numbers used for prices are modelled as `ℚ` (the pipeline only
  multiplies, compares and sorts them).
* The cached dict `CACHED_DATA["color_model_map"]` is modelled as an
  association list `ColorMap` preserving key insertion order, read through
  `mapGetD` (Python `dict.get(color, [])`) and written through `mapAppend`
  (Python `if k not in d: d[k] = []` followed by `d[k].append(v)`).
* Each upstream HTTP/library call that can raise is modelled by an
  `Except Unit` value supplied as an input: `Except.error ()` means the
  call raised.  An adapter's response is universally quantified, so the
  theorems hold for every possible upstream behaviour.
* Python exception handling: a `try` block that is aborted keeps all
  mutations performed before the raise; this is modelled by folds that
  return the state accumulated so far together with a success flag, or by
  cutting off the remainder of the fold.
-/

namespace ColorGifts

/-- Python `s.endswith(t)`, over the characters of the strings. -/
def pyEndsWith (s t : String) : Bool := t.data.isSuffixOf s.data

/-- Worker for Python `s.replace(old, new)`: left-to-right, non-overlapping
replacement of every occurrence.  `skip` counts characters of a matched
occurrence still to be consumed. -/
def replaceAux (old new : List Char) : Nat → List Char → List Char
  | _, [] => []
  | n + 1, _ :: rest => replaceAux old new n rest
  | 0, c :: rest =>
    if old.isPrefixOf (c :: rest) then new ++ replaceAux old new (old.length - 1) rest
    else c :: replaceAux old new 0 rest

/-- Python `s.replace(old, new)` for the non-empty `old` the code uses. -/
def pyReplace (s old new : String) : String := String.mk (replaceAux old.data new.data 0 s.data)

/-- Worker for Python `s.split(sep)[0]`: the text before the first
occurrence of `sep`. -/
def takeUntilSep (sep : List Char) : List Char → List Char
  | [] => []
  | c :: rest => if sep.isPrefixOf (c :: rest) then [] else c :: takeUntilSep sep rest

/-- Python `s.lower()` on the ASCII names the code handles. -/
def pyLower (s : String) : String := String.mk (s.data.map Char.toLower)

/-- Association-list model of a Python dict from color name to the list of
`(collection, model)` pairs, preserving key insertion order. -/
abbrev ColorMap := List (String × List (String × String))

/-- Python `d.get(k, default)` on the color map. -/
def mapGetD : ColorMap → String → List (String × String) → List (String × String)
  | [], _, d => d
  | kv :: rest, k, d => if kv.1 = k then kv.2 else mapGetD rest k d

/-- Python `if k not in d: d[k] = []` followed by `d[k].append(v)`:
appends `v` to the entry of `k`, creating the entry at the end of the
dict's key order when absent. -/
def mapAppend : ColorMap → String → (String × String) → ColorMap
  | [], k, v => [(k, [v])]
  | kv :: rest, k, v =>
    if kv.1 = k then (kv.1, kv.2 ++ [v]) :: rest else kv :: mapAppend rest k v

/-- The value stored for one model inside a per-collection model→color
file: either a JSON object whose optional `main_color` field is read with
`data.get("main_color", "unknown")`, or a bare (non-dict) JSON value, on
which Python's `data.get` raises `AttributeError`. -/
inductive ModelData where
  | obj (main_color : Option String)
  | str (s : String)
deriving DecidableEq

/-- One file of the GitHub contents listing: its `name` and the outcome of
fetching and JSON-parsing its download URL (`Except.error ()` models a
fetch or parse failure). -/
structure CFile where
  name : String
  fetch : Except Unit (List (String × ModelData))

/-- The per-entry body of the build loop (`for model_name, data in
models_data.items()`), threading the map being mutated in place.  The
`Bool` is `false` when an entry raised (a non-dict `data`), in which case
the map holds exactly the entries appended before the raise. -/
def processEntries (m : ColorMap) (gift_name : String) :
    List (String × ModelData) → ColorMap × Bool
  | [] => (m, true)
  | (model_name, data) :: rest =>
    match data with
    | ModelData.obj mc =>
        processEntries (mapAppend m (mc.getD "unknown") (gift_name, model_name)) gift_name rest
    | ModelData.str _ => (m, false)

/-- The per-file body of the build loop (`for file in files`), skipping
names not ending in `.json`; a fetch/parse failure or an entry raise stops
the whole loop (the surrounding `try` covers all files), keeping the map
accumulated so far. -/
def processFiles (m : ColorMap) : List CFile → ColorMap × Bool
  | [] => (m, true)
  | f :: rest =>
    if pyEndsWith f.name ".json" then
      match f.fetch with
      | Except.error _ => (m, false)
      | Except.ok entries =>
        match processEntries m (pyReplace f.name ".json" "") entries with
        | (m', true) => processFiles m' rest
        | (m', false) => (m', false)
    else processFiles m rest

/-- The mutable startup cache `CACHED_DATA` (the constant `colors` list is
omitted: it is never written). -/
structure CachedData where
  collections : List (String × String)
  backdrops : List String
  color_model_map : ColorMap
deriving DecidableEq

/-- `load_initial_data`: fetches the collection catalog, the backdrop
catalog and the model→color files, mutating `CACHED_DATA` in place inside
one `try/except` that swallows every exception, so the returned state is
whatever was assembled before the first raise. -/
def load_initial_data (init : CachedData)
    (collectionsRes : Except Unit (List (String × String)))
    (backdropsRes : Except Unit (List String))
    (filesRes : Except Unit (List CFile)) : CachedData :=
  match collectionsRes with
  | Except.error _ => init
  | Except.ok cols =>
    let s1 := { init with collections := cols }
    match backdropsRes with
    | Except.error _ => s1
    | Except.ok bds =>
      let s2 := { s1 with backdrops := bds }
      match filesRes with
      | Except.error _ => s2
      | Except.ok files =>
        { s2 with color_model_map := (processFiles s2.color_model_map files).1 }

/-- The canonical Gift shape produced by both formatters. -/
structure Gift where
  id : String
  name : String
  model : String
  price : ℚ
  imageUrl : String
  buyUrl : String
  source : String
deriving DecidableEq

/-- One attribute of a Portals raw record. -/
structure PAttr where
  type : String
  value : String
deriving DecidableEq

/-- A raw record returned by the Portals adapter (`searchPortalsGifts`). -/
structure PortalsRaw where
  id : String
  name : String
  attributes : List PAttr
  price : ℚ
  photo_url : String
deriving DecidableEq

/-- A raw record returned by the Tonnel adapter (`getTonnelGifts`).
Numeric ids are modelled as the strings they are interpolated into. -/
structure TonnelRaw where
  gift_id : String
  name : String
  model : String
  price : ℚ
  gift_num : String
deriving DecidableEq

/-- Python `s.split(' (')[0]`: the text before the first `" ("`. -/
def modelBase (s : String) : String := String.mk (takeUntilSep " (".data s.data)

/-- `format_portals_gift`. -/
def format_portals_gift (gift : PortalsRaw) : Gift :=
  { id := "portals_" ++ gift.id
    name := gift.name
    model :=
      match gift.attributes.find? (fun attr => decide (attr.type = "model")) with
      | some attr => attr.value
      | none => "N/A"
    price := gift.price
    imageUrl := gift.photo_url
    buyUrl := "https://t.me/portals/market?startapp=gift_" ++ gift.id
    source := "portals" }

/-- `format_tonnel_gift` (price marked up by 1.1; image URL templated from
the lower-cased, space-stripped collection name). -/
def format_tonnel_gift (gift : TonnelRaw) : Gift :=
  { id := "tonnel_" ++ gift.gift_id
    name := gift.name
    model := modelBase gift.model
    price := gift.price * (11 / 10 : ℚ)
    imageUrl := "https://nft.fragment.com/gift/" ++ pyReplace (pyLower gift.name) " " ""
      ++ "-" ++ gift.gift_num ++ ".large.jpg"
    buyUrl := "https://market.tonnel.network/gift/" ++ gift.gift_id
    source := "tonnel" }

/-- The Portals acceptance loop: keep a raw record only if it has a
`model` attribute and `(gift['name'], model_attr['value'])` is one of the
candidate pairs, then format it. -/
def portalsAccept (pairs : List (String × String)) (res : List PortalsRaw) : List Gift :=
  (res.filter (fun gift =>
    match gift.attributes.find? (fun attr => decide (attr.type = "model")) with
    | some attr => decide ((gift.name, attr.value) ∈ pairs)
    | none => false)).map format_portals_gift

/-- The whole Portals `try` block: a raised call contributes nothing. -/
def portalsPart (presp : Except Unit (List PortalsRaw))
    (pairs : List (String × String)) : List Gift :=
  match presp with
  | Except.error _ => []
  | Except.ok res => portalsAccept pairs res

/-- The Tonnel per-collection loop.  Collections with no candidate model
are skipped; a raised call aborts the remaining iterations (the `try`
wraps the whole loop) but keeps the gifts already appended. -/
def tonnelFetch (pairs : List (String × String))
    (tresp : String → Except Unit (List TonnelRaw)) : List String → List Gift
  | [] => []
  | collection_name :: rest =>
    let models_in_collection :=
      (pairs.filter (fun m => decide (m.1 = collection_name))).map Prod.snd
    if models_in_collection = [] then tonnelFetch pairs tresp rest
    else
      match tresp collection_name with
      | Except.error _ => []
      | Except.ok res =>
        ((res.filter (fun gift =>
            decide (modelBase gift.model ∈ models_in_collection))).map format_tonnel_gift)
          ++ tonnelFetch pairs tresp rest

/-- The collections the Tonnel loop iterates, `collections_to_search` in
the code: the filter when non-empty, else the distinct collections of the
candidate pairs (`list(set(...))` modelled as first-occurrence
deduplication). -/
def collections_to_search (collections : List String)
    (pairs : List (String × String)) : List String :=
  if collections ≠ [] then collections else (pairs.map Prod.fst).eraseDups

/-- The whole Tonnel `try` block, including the choice of which
collections to query. -/
def tonnelPart (tresp : String → Except Unit (List TonnelRaw))
    (collections : List String) (pairs : List (String × String)) : List Gift :=
  tonnelFetch pairs tresp (collections_to_search collections pairs)

/-- Ascending comparison used by `all_gifts.sort(key=lambda x: x['price'])`. -/
def priceLe (a b : Gift) : Prop := a.price ≤ b.price

/-- Comparison realised by `sort(key=..., reverse=True)`: Python's stable
sort with `reverse=True` keeps ties in original order, which is exactly a
stable sort under the flipped comparison. -/
def priceGe (a b : Gift) : Prop := b.price ≤ a.price

instance : DecidableRel priceLe :=
  fun a b => inferInstanceAs (Decidable (a.price ≤ b.price))

instance : DecidableRel priceGe :=
  fun a b => inferInstanceAs (Decidable (b.price ≤ a.price))

instance : IsTotal Gift priceLe := ⟨fun a b => le_total a.price b.price⟩

instance : IsTrans Gift priceLe := ⟨fun _ _ _ h1 h2 => le_trans h1 h2⟩

instance : IsTotal Gift priceGe := ⟨fun a b => le_total b.price a.price⟩

instance : IsTrans Gift priceGe := ⟨fun _ _ _ h1 h2 => le_trans h2 h1⟩

/-- The two price-bound filters (inclusive; an absent bound filters
nothing). -/
def priceFilter (min_price max_price : Option ℚ) (gs : List Gift) : List Gift :=
  let gs1 :=
    match min_price with
    | some m => gs.filter (fun g => decide (m ≤ g.price))
    | none => gs
  match max_price with
  | some m => gs1.filter (fun g => decide (g.price ≤ m))
  | none => gs1

/-- Final filtering and sorting: price bounds, then a stable sort when
`sort` is `price_asc` or `price_desc`, else no reordering at all. -/
def finalize (min_price max_price : Option ℚ) (sort : String) (gs : List Gift) : List Gift :=
  let gs2 := priceFilter min_price max_price gs
  if sort = "price_asc" then List.insertionSort priceLe gs2
  else if sort = "price_desc" then List.insertionSort priceGe gs2
  else gs2

/-- The candidate pairs after the index lookup and the collection filter
(`models_for_color` after the reassignment on line 104 of `app.py`). -/
def models1Of (cache : ColorMap) (cval : String) (collections : List String) :
    List (String × String) :=
  let models_for_color := mapGetD cache cval []
  if collections ≠ [] then
    models_for_color.filter (fun m => decide (m.1 ∈ collections))
  else models_for_color

/-- The `/api/search` handler after query parsing.  `color` and `sortArg`
are `Option`s because `args.get` yields `None` for an absent parameter
(`sort` defaults to `price_asc`); `collections`/`backdrops` are the parsed
CSV lists (empty when the parameter is absent or empty); the adapter
responses are inputs.  The `Except.error` branch is the 400
`Color parameter is required` response. -/
def search_gifts (cache : ColorMap) (color : Option String)
    (collections backdrops : List String) (min_price max_price : Option ℚ)
    (sortArg : Option String) (presp : Except Unit (List PortalsRaw))
    (tresp : String → Except Unit (List TonnelRaw)) : Except String (List Gift) :=
  let sort := sortArg.getD "price_asc"
  if color.getD "" = "" then Except.error "Color parameter is required"
  else
    let models_for_color := mapGetD cache (color.getD "") []
    if models_for_color = [] then Except.ok []
    else
      let models_filtered :=
        if collections ≠ [] then
          models_for_color.filter (fun m => decide (m.1 ∈ collections))
        else models_for_color
      if models_filtered = [] then Except.ok []
      else
        let portals_gifts := portalsPart presp models_filtered
        let tonnel_gifts := tonnelPart tresp collections models_filtered
        let all_gifts := portals_gifts ++ tonnel_gifts
        Except.ok (finalize min_price max_price sort all_gifts)

/-! ### Structural lemmas about the pipeline stages -/

theorem portalsAccept_nil (res : List PortalsRaw) : portalsAccept [] res = [] := by
  have h : res.filter (fun gift =>
      match gift.attributes.find? (fun attr => decide (attr.type = "model")) with
      | some attr => decide ((gift.name, attr.value) ∈ ([] : List (String × String)))
      | none => false) = [] := by
    apply List.filter_eq_nil_iff.mpr
    intro a _
    cases a.attributes.find? (fun attr => decide (attr.type = "model")) <;> simp
  unfold portalsAccept
  rw [h]
  rfl

theorem portalsPart_nil (presp : Except Unit (List PortalsRaw)) :
    portalsPart presp [] = [] := by
  cases presp
  · rfl
  · exact portalsAccept_nil _

theorem tonnelFetch_nil_pairs (tresp : String → Except Unit (List TonnelRaw)) :
    ∀ names, tonnelFetch [] tresp names = []
  | [] => rfl
  | name :: rest => by
    show tonnelFetch [] tresp rest = []
    exact tonnelFetch_nil_pairs tresp rest

theorem tonnelPart_nil (tresp : String → Except Unit (List TonnelRaw))
    (collections : List String) : tonnelPart tresp collections [] = [] := by
  unfold tonnelPart
  exact tonnelFetch_nil_pairs tresp _

theorem finalize_nil (min_price max_price : Option ℚ) (sort : String) :
    finalize min_price max_price sort [] = [] := by
  cases min_price <;> cases max_price <;>
    simp [finalize, priceFilter]

/-- Normal form of the handler: the two early empty returns coincide with
running the adapter stages on an empty candidate list, so the whole
handler is the 400 response or the composed pipeline. -/
theorem search_gifts_eq (cache : ColorMap) (color : Option String)
    (collections backdrops : List String) (min_price max_price : Option ℚ)
    (sortArg : Option String) (presp : Except Unit (List PortalsRaw))
    (tresp : String → Except Unit (List TonnelRaw)) :
    search_gifts cache color collections backdrops min_price max_price sortArg presp tresp =
      if color.getD "" = "" then Except.error "Color parameter is required"
      else Except.ok (finalize min_price max_price (sortArg.getD "price_asc")
        (portalsPart presp (models1Of cache (color.getD "") collections)
          ++ tonnelPart tresp collections (models1Of cache (color.getD "") collections))) := by
  by_cases hc : color.getD "" = ""
  · simp [search_gifts, hc]
  · by_cases h0 : mapGetD cache (color.getD "") [] = []
    · have hm : models1Of cache (color.getD "") collections = [] := by
        simp only [models1Of, h0]
        split <;> simp
      simp [search_gifts, hc, h0, hm, portalsPart_nil, tonnelPart_nil, finalize_nil]
    · by_cases h1 : models1Of cache (color.getD "") collections = []
      · have hcol : collections ≠ [] := by
          intro hne
          apply h0
          simpa [models1Of, hne] using h1
        have h1' : (mapGetD cache (color.getD "") []).filter
            (fun m => decide (m.1 ∈ collections)) = [] := by
          simpa [models1Of, hcol] using h1
        simp [search_gifts, hc, h0, hcol, h1', h1, portalsPart_nil, tonnelPart_nil,
          finalize_nil]
      · have h1' : (if collections ≠ [] then (mapGetD cache (color.getD "") []).filter
            (fun m => decide (m.1 ∈ collections)) else mapGetD cache (color.getD "") []) ≠ [] := by
          simpa [models1Of] using h1
        simp only [search_gifts, models1Of, if_neg hc, if_neg h0, if_neg h1']

theorem mem_priceFilter_iff {g : Gift} {min_price max_price : Option ℚ} {gs : List Gift} :
    g ∈ priceFilter min_price max_price gs ↔
      g ∈ gs ∧ (∀ m, min_price = some m → m ≤ g.price)
        ∧ (∀ m, max_price = some m → g.price ≤ m) := by
  cases min_price <;> cases max_price <;>
    simp [priceFilter, List.mem_filter, and_assoc] <;> tauto

theorem mem_finalize_iff {g : Gift} {min_price max_price : Option ℚ} {sort : String}
    {gs : List Gift} :
    g ∈ finalize min_price max_price sort gs ↔ g ∈ priceFilter min_price max_price gs := by
  unfold finalize
  split_ifs <;> simp

/-! ### Stability of the sort with respect to a key -/

theorem filter_orderedInsert {α β : Type} (r : α → α → Prop) [DecidableRel r] (k : α → β)
    [DecidableEq β] (hr : ∀ a b, k a = k b → r a b) (p : β) (a : α) :
    ∀ l : List α, (List.orderedInsert r a l).filter (fun x => decide (k x = p)) =
      if k a = p then a :: l.filter (fun x => decide (k x = p))
      else l.filter (fun x => decide (k x = p))
  | [] => by
    by_cases hka : k a = p <;> simp [List.orderedInsert, List.filter_cons, hka]
  | b :: t => by
    by_cases hab : r a b
    · by_cases hka : k a = p <;>
        simp [List.orderedInsert, if_pos hab, List.filter_cons, hka]
    · have hkab : k a ≠ k b := fun h => hab (hr a b h)
      rw [List.orderedInsert, if_neg hab, List.filter_cons, List.filter_cons,
        filter_orderedInsert r k hr p a t]
      by_cases hkb : k b = p
      · have hka : k a ≠ p := fun h => hkab (h.trans hkb.symm)
        simp [hkb, hka]
      · by_cases hka : k a = p <;> simp [hka, hkb]

theorem filter_insertionSort {α β : Type} (r : α → α → Prop) [DecidableRel r] (k : α → β)
    [DecidableEq β] (hr : ∀ a b, k a = k b → r a b) (p : β) :
    ∀ l : List α, (List.insertionSort r l).filter (fun x => decide (k x = p)) =
      l.filter (fun x => decide (k x = p))
  | [] => rfl
  | a :: l => by
    rw [List.insertionSort, filter_orderedInsert r k hr p a,
      filter_insertionSort r k hr p l, List.filter_cons]
    by_cases hka : k a = p <;> simp [hka]

/-! ### Where accepted gifts come from -/

theorem mem_portalsAccept {g : Gift} {pairs : List (String × String)} {res : List PortalsRaw}
    (hg : g ∈ portalsAccept pairs res) :
    ∃ raw attr, raw ∈ res ∧
      raw.attributes.find? (fun a => decide (a.type = "model")) = some attr ∧
      (raw.name, attr.value) ∈ pairs ∧ g = format_portals_gift raw := by
  unfold portalsAccept at hg
  rw [List.mem_map] at hg
  obtain ⟨raw, hmem, hfmt⟩ := hg
  rw [List.mem_filter] at hmem
  obtain ⟨hres, hpred⟩ := hmem
  cases hfind : raw.attributes.find? (fun a => decide (a.type = "model")) with
  | none => rw [hfind] at hpred; exact absurd hpred (by simp)
  | some attr =>
    rw [hfind] at hpred
    exact ⟨raw, attr, hres, hfind, by simpa using hpred, hfmt.symm⟩

/-- A gift accepted in the Portals loop carries a candidate pair: its own
`(name, model)`. -/
theorem mem_portalsPart {g : Gift} {presp : Except Unit (List PortalsRaw)}
    {pairs : List (String × String)} (hg : g ∈ portalsPart presp pairs) :
    ∃ pr, pr ∈ pairs ∧ pr.1 = g.name ∧ pr.2 = g.model ∧ g.source = "portals" := by
  cases presp with
  | error e => exact absurd hg (List.not_mem_nil g)
  | ok res =>
    obtain ⟨raw, attr, _, hfind, hpair, hfmt⟩ := mem_portalsAccept hg
    refine ⟨(raw.name, attr.value), hpair, ?_, ?_, ?_⟩
    · rw [hfmt]; rfl
    · rw [hfmt]; simp [format_portals_gift, hfind]
    · rw [hfmt]; rfl

/-- A gift accepted in the Tonnel loop carries its full provenance: a
queried collection `qc` among the iterated names whose successful response
contains the raw record the gift was formatted from, with the pair
`(qc, parsed model)` among the candidate pairs. -/
theorem mem_tonnelFetch {g : Gift} {pairs : List (String × String)}
    {tresp : String → Except Unit (List TonnelRaw)} :
    ∀ names, g ∈ tonnelFetch pairs tresp names →
      ∃ qc res raw, qc ∈ names ∧ tresp qc = Except.ok res ∧ raw ∈ res ∧
        g = format_tonnel_gift raw ∧ (qc, modelBase raw.model) ∈ pairs
  | [], h => absurd h (List.not_mem_nil g)
  | name :: rest, h => by
    rw [tonnelFetch] at h
    split at h
    · obtain ⟨qc, res, raw, hqc, hres, hraw, hfmt, hpair⟩ := mem_tonnelFetch rest h
      exact ⟨qc, res, raw, List.mem_cons_of_mem _ hqc, hres, hraw, hfmt, hpair⟩
    · split at h
      · exact absurd h (List.not_mem_nil g)
      · rename_i res heq
        rcases List.mem_append.mp h with hl | hrest
        · rw [List.mem_map] at hl
          obtain ⟨raw, hraw, hfmt⟩ := hl
          rw [List.mem_filter] at hraw
          have hmem : modelBase raw.model ∈
              (pairs.filter (fun m => decide (m.1 = name))).map Prod.snd := by
            simpa using hraw.2
          rw [List.mem_map] at hmem
          obtain ⟨⟨pr1, pr2⟩, hpr, hpr2⟩ := hmem
          rw [List.mem_filter] at hpr
          have hpr1 : pr1 = name := by simpa using hpr.2
          subst hpr1
          have hpr2' : pr2 = modelBase raw.model := hpr2
          subst hpr2'
          exact ⟨pr1, res, raw, List.mem_cons_self _ _, heq, hraw.1, hfmt.symm, hpr.1⟩
        · obtain ⟨qc, res', raw, hqc, hres, hraw, hfmt, hpair⟩ := mem_tonnelFetch rest hrest
          exact ⟨qc, res', raw, List.mem_cons_of_mem _ hqc, hres, hraw, hfmt, hpair⟩

theorem mem_tonnelPart {g : Gift} {tresp : String → Except Unit (List TonnelRaw)}
    {collections : List String} {pairs : List (String × String)}
    (hg : g ∈ tonnelPart tresp collections pairs) :
    ∃ qc res raw, qc ∈ collections_to_search collections pairs ∧
      tresp qc = Except.ok res ∧ raw ∈ res ∧
      g = format_tonnel_gift raw ∧ (qc, modelBase raw.model) ∈ pairs :=
  mem_tonnelFetch _ hg

theorem mem_models1Of {pr : String × String} {cache : ColorMap} {cval : String}
    {collections : List String} (h : pr ∈ models1Of cache cval collections) :
    pr ∈ mapGetD cache cval [] ∧ (collections ≠ [] → pr.1 ∈ collections) := by
  unfold models1Of at h
  split at h
  · rw [List.mem_filter] at h
    exact ⟨h.1, fun _ => by simpa using h.2⟩
  · rename_i hcol
    exact ⟨h, fun hc => absurd hc hcol⟩

/-- If every Tonnel call raises, the whole Tonnel stage contributes
nothing. -/
theorem tonnelFetch_error {pairs : List (String × String)}
    {tresp : String → Except Unit (List TonnelRaw)}
    (h : ∀ c, tresp c = Except.error ()) :
    ∀ names, tonnelFetch pairs tresp names = []
  | [] => rfl
  | name :: rest => by
    rw [tonnelFetch]
    split
    · exact tonnelFetch_error h rest
    · rw [h name]

/-! ### Lemmas about the startup build -/

theorem mapGetD_mapAppend_self (k : String) (v : String × String) :
    ∀ m : ColorMap, mapGetD (mapAppend m k v) k [] = mapGetD m k [] ++ [v]
  | [] => by simp [mapAppend, mapGetD]
  | kv :: rest => by
    by_cases hk : kv.1 = k
    · simp [mapAppend, mapGetD, hk]
    · simp [mapAppend, mapGetD, hk, mapGetD_mapAppend_self k v rest]

theorem mapGetD_mapAppend_ne {c k : String} (hck : c ≠ k) (v : String × String)
    (d : List (String × String)) :
    ∀ m : ColorMap, mapGetD (mapAppend m k v) c d = mapGetD m c d
  | [] => by
    have hkc : ¬ (k = c) := fun h => hck h.symm
    simp [mapAppend, mapGetD, hkc]
  | kv :: rest => by
    by_cases hk : kv.1 = k
    · have hkc : ¬ (k = c) := fun h => hck h.symm
      simp [mapAppend, mapGetD, hk, hkc]
    · by_cases hc : kv.1 = c
      · simp [mapAppend, mapGetD, hk, hc, hck]
      · simp [mapAppend, mapGetD, hk, hc, mapGetD_mapAppend_ne hck v d rest]

theorem mem_mapGetD_mapAppend {x v : String × String} {c k : String} {m : ColorMap}
    (h : x ∈ mapGetD m c []) : x ∈ mapGetD (mapAppend m k v) c [] := by
  by_cases hck : c = k
  · subst hck
    rw [mapGetD_mapAppend_self]
    exact List.mem_append_left _ h
  · rw [mapGetD_mapAppend_ne hck]
    exact h

/-- Entries already present in the map survive the rest of the entry
loop. -/
theorem processEntries_mono {x : String × String} {c : String} (g : String) :
    ∀ (entries : List (String × ModelData)) (m : ColorMap), x ∈ mapGetD m c [] →
      x ∈ mapGetD (processEntries m g entries).1 c []
  | [], _, h => h
  | (mn, d) :: rest, m, h => by
    cases d with
    | obj mc =>
      exact processEntries_mono g rest _ (mem_mapGetD_mapAppend h)
    | str s => exact h

/-- Maps already built survive the rest of the file loop. -/
theorem processFiles_mono {x : String × String} {c : String} :
    ∀ (files : List CFile) (m : ColorMap), x ∈ mapGetD m c [] →
      x ∈ mapGetD (processFiles m files).1 c []
  | [], _, h => h
  | f :: rest, m, h => by
    rw [processFiles]
    split
    · cases hf : f.fetch with
      | error e => exact h
      | ok entries =>
        cases hpe : processEntries m (pyReplace f.name ".json" "") entries with
        | mk m' flag =>
          cases flag with
          | true =>
            have h' : x ∈ mapGetD m' c [] := by
              have := processEntries_mono (pyReplace f.name ".json" "") entries m h
              rw [hpe] at this
              exact this
            simpa [hf, hpe] using processFiles_mono rest m' h'
          | false =>
            have h' : x ∈ mapGetD m' c [] := by
              have := processEntries_mono (pyReplace f.name ".json" "") entries m h
              rw [hpe] at this
              exact this
            simpa [hf, hpe] using h'
    · exact processFiles_mono rest m h

/-- Splitting the file loop at an append: the suffix runs on the map built
by the prefix, and only when the prefix finished without raising. -/
theorem processFiles_append (l2 : List CFile) :
    ∀ (l1 : List CFile) (m : ColorMap), processFiles m (l1 ++ l2) =
      match processFiles m l1 with
      | (m', true) => processFiles m' l2
      | (m', false) => (m', false)
  | [], m => rfl
  | f :: rest, m => by
    by_cases hjson : pyEndsWith f.name ".json" = true
    · cases hf : f.fetch with
      | error e => simp [List.cons_append, processFiles, hjson, hf]
      | ok entries =>
        cases hpe : processEntries m (pyReplace f.name ".json" "") entries with
        | mk m' flag =>
          cases flag with
          | true =>
            simp [List.cons_append, processFiles, hjson, hf, hpe,
              processFiles_append l2 rest m']
          | false => simp [List.cons_append, processFiles, hjson, hf, hpe]
    · simp [List.cons_append, processFiles, hjson, processFiles_append l2 rest m]

/-- When every entry of a file is a JSON object, the entry loop finishes
and every entry lands in the index under `data.get("main_color",
"unknown")`. -/
theorem processEntries_obj (g : String) :
    ∀ (entries : List (String × ModelData)) (m : ColorMap),
      (∀ e ∈ entries, ∃ mc, e.2 = ModelData.obj mc) →
      (processEntries m g entries).2 = true ∧
      ∀ mn mc, (mn, ModelData.obj mc) ∈ entries →
        (g, mn) ∈ mapGetD (processEntries m g entries).1 (mc.getD "unknown") []
  | [], m, _ => ⟨rfl, fun mn mc hmem => absurd hmem (List.not_mem_nil _)⟩
  | (mn0, d0) :: rest, m, h => by
    obtain ⟨mc0, hd0⟩ := h (mn0, d0) (List.mem_cons_self _ _)
    have hd0' : d0 = ModelData.obj mc0 := hd0
    subst hd0'
    have hrest : ∀ e ∈ rest, ∃ mc, e.2 = ModelData.obj mc :=
      fun e he => h e (List.mem_cons_of_mem _ he)
    refine ⟨(processEntries_obj g rest _ hrest).1, ?_⟩
    intro mn mc hmem
    rcases List.mem_cons.mp hmem with heq | htail
    · rw [Prod.mk.injEq] at heq
      obtain ⟨rfl, h2⟩ := heq
      injection h2 with h2
      subst h2
      show (g, mn) ∈ mapGetD (processEntries
        (mapAppend m (mc.getD "unknown") (g, mn)) g rest).1 (mc.getD "unknown") []
      apply processEntries_mono
      rw [mapGetD_mapAppend_self]
      exact List.mem_append_right _ (List.mem_singleton.mpr rfl)
    · exact (processEntries_obj g rest _ hrest).2 mn mc htail

/-! ### Concrete inputs used by witnesses and counterexamples -/

/-- A well-formed model→color file named `a.json`. -/
def fileA : CFile := ⟨"a.json", Except.ok [("m1", ModelData.obj (some "red"))]⟩

/-- A file whose fetch/parse raises (e.g. invalid JSON). -/
def fileB : CFile := ⟨"b.json", Except.error ()⟩

/-- A well-formed model→color file named `c.json`, listed after the
failing one. -/
def fileC : CFile := ⟨"c.json", Except.ok [("m3", ModelData.obj (some "red"))]⟩

/-! ### Claim C2 -/

/-- Claim C2, refuted: with the listing `[a.json, b.json (invalid),
c.json]`, exactly one file fails, yet the resulting color index lacks
`c.json`'s entry `("c", "m3")` — the single `try/except` around the whole
loop aborts the remaining files, so the failure is not isolated to the
failing file.  (The build itself completes: the flag logs the swallowed
exception.) -/
theorem build_single_failure_counterexample :
    (processFiles [] [fileA, fileB, fileC]).1 = [("red", [("a", "m1")])]
    ∧ ("c", "m3") ∉ mapGetD (processFiles [] [fileA, fileB, fileC]).1 "red" []
    ∧ fileC.fetch = Except.ok [("m3", ModelData.obj (some "red"))] := by
  refine ⟨by decide, by decide, rfl⟩

/-- Claim C2 (amended): a failure to fetch or parse one per-collection
file is swallowed by the `try/except` around the whole build, so the build
completes without raising and keeps the contributions of the files
processed *before* the failing one — but the loop stops there, and every
file after the failing one contributes nothing. -/
theorem build_single_failure_amended (m : ColorMap) (pre : List CFile) (f : CFile)
    (rest : List CFile) (hpre : (processFiles m pre).2 = true)
    (hname : pyEndsWith f.name ".json" = true) (hfail : f.fetch = Except.error ()) :
    processFiles m (pre ++ f :: rest) = ((processFiles m pre).1, false) := by
  rw [processFiles_append]
  cases hp : processFiles m pre with
  | mk m' flag =>
    rw [hp] at hpre
    cases flag with
    | false => exact absurd hpre (by simp)
    | true => simp [processFiles, hname, hfail, hp]

/-- Witness for the amended C2 at a concrete listing. -/
theorem build_single_failure_amended_witness :
    processFiles [] ([fileA] ++ fileB :: [fileC]) = ((processFiles [] [fileA]).1, false) :=
  build_single_failure_amended [] [fileA] fileB [fileC] (by decide) (by decide) rfl

/-! ### Claim C5 -/

/-- Claim C5, refuted at two concrete entries.  First, an object entry
without `main_color` is not skipped: `data.get("main_color", "unknown")`
files it under `"unknown"`.  Second, a bare string value is not accepted
as the color: `data.get` raises `AttributeError`, aborting the loop with
nothing recorded (here the map stays empty and the flag reports the
raise). -/
theorem build_entry_rule_counterexample :
    processEntries [] "g" [("m", ModelData.obj none)] = ([("unknown", [("g", "m")])], true)
    ∧ processEntries [] "g" [("m", ModelData.str "red"), ("m2", ModelData.obj (some "red"))]
        = ([], false) := ⟨rfl, rfl⟩

/-- Claim C5 (amended): for an entry `model -> data` processed by the
build, when `data` is an object its color is `data.main_color` if present
and `"unknown"` otherwise, and the pair `(collection, model)` is always
appended to the index under that color — no object entry is skipped; when
`data` is not an object (e.g. a bare string) the read raises and the rest
of the build loop is abandoned, the map keeping only what was appended
before. -/
theorem build_entry_rule_amended (g : String) (m : ColorMap)
    (entries : List (String × ModelData))
    (hobj : ∀ e ∈ entries, ∃ mc, e.2 = ModelData.obj mc) :
    ((processEntries m g entries).2 = true ∧
      ∀ mn mc, (mn, ModelData.obj mc) ∈ entries →
        (g, mn) ∈ mapGetD (processEntries m g entries).1 (mc.getD "unknown") [])
    ∧ ∀ (m' : ColorMap) (mn s : String) (rest : List (String × ModelData)),
        processEntries m' g ((mn, ModelData.str s) :: rest) = (m', false) :=
  ⟨processEntries_obj g entries m hobj, fun _ _ _ _ => rfl⟩

/-- Witness for the amended C5 at a concrete file content. -/
theorem build_entry_rule_amended_witness :
    ((processEntries [] "g" [("m1", ModelData.obj (some "red")), ("m2", ModelData.obj none)]).2
        = true
      ∧ ∀ mn mc, (mn, ModelData.obj mc) ∈
            [("m1", ModelData.obj (some "red")), ("m2", ModelData.obj none)] →
          ("g", mn) ∈ mapGetD (processEntries [] "g"
            [("m1", ModelData.obj (some "red")), ("m2", ModelData.obj none)]).1
            (mc.getD "unknown") [])
    ∧ ∀ (m' : ColorMap) (mn s : String) (rest : List (String × ModelData)),
        processEntries m' "g" ((mn, ModelData.str s) :: rest) = (m', false) :=
  build_entry_rule_amended "g" []
    [("m1", ModelData.obj (some "red")), ("m2", ModelData.obj none)]
    (by
      intro e he
      rw [List.mem_cons] at he
      rcases he with he | he
      · exact ⟨some "red", by rw [he]⟩
      · rw [List.mem_cons] at he
        rcases he with he | he
        · exact ⟨none, by rw [he]⟩
        · exact absurd he (List.not_mem_nil e))

/-- A color map as built at startup: red maps to model `m1` of collection
`A` and model `m2` of collection `B`. -/
def exCache : ColorMap := [("red", [("A", "m1"), ("B", "m2")])]

/-- A Portals record matching candidate pair `("A", "m1")`, price 5. -/
def exPortalsA : PortalsRaw := ⟨"1", "A", [⟨"model", "m1"⟩], 5, "imgA"⟩

/-- A second Portals record for the same pair, price 3. -/
def exPortalsB : PortalsRaw := ⟨"2", "A", [⟨"model", "m1"⟩], 3, "imgB"⟩

/-- A Tonnel record for collection `B` whose compound model string parses
to candidate model `m2`. -/
def exTonnelB : TonnelRaw := ⟨"7", "B", "m2 (rare)", 10, "3"⟩

/-- A Tonnel adapter that raises on every call. -/
def errResp : String → Except Unit (List TonnelRaw) := fun _ => Except.error ()

/-! ### Claim C6 -/

/-- Claim C6: when the `color` parameter is absent (`none`) or empty, the
handler returns the 400 client error `Color parameter is required`.  The
two adapter responses are universally quantified and the result is the
same constant for all of them, so neither adapter is consulted. -/
theorem missing_color_rejected (cache : ColorMap) (collections backdrops : List String)
    (min_price max_price : Option ℚ) (sortArg : Option String)
    (presp : Except Unit (List PortalsRaw)) (tresp : String → Except Unit (List TonnelRaw)) :
    search_gifts cache none collections backdrops min_price max_price sortArg presp tresp
        = Except.error "Color parameter is required"
    ∧ search_gifts cache (some "") collections backdrops min_price max_price sortArg presp
        tresp = Except.error "Color parameter is required" :=
  ⟨rfl, rfl⟩

/-! ### Claim C7 -/

/-- Claim C7: a color with no entry in the color index yields `Except.ok []`,
and so does a non-empty collections filter that leaves no candidate pair —
neither case is an error. -/
theorem empty_candidates_empty_result (cache : ColorMap) (color : Option String)
    (collections backdrops : List String) (min_price max_price : Option ℚ)
    (sortArg : Option String) (presp : Except Unit (List PortalsRaw))
    (tresp : String → Except Unit (List TonnelRaw)) (hc : color.getD "" ≠ "") :
    (mapGetD cache (color.getD "") [] = [] →
      search_gifts cache color collections backdrops min_price max_price sortArg presp tresp
        = Except.ok [])
    ∧ (collections ≠ [] →
      (mapGetD cache (color.getD "") []).filter (fun m => decide (m.1 ∈ collections)) = [] →
      search_gifts cache color collections backdrops min_price max_price sortArg presp tresp
        = Except.ok []) := by
  constructor
  · intro h0
    have hm : models1Of cache (color.getD "") collections = [] := by
      unfold models1Of
      rw [h0]
      split <;> simp
    rw [search_gifts_eq, if_neg hc, hm, portalsPart_nil, tonnelPart_nil, List.append_nil,
      finalize_nil]
  · intro hcol h1
    have hm : models1Of cache (color.getD "") collections = [] := by
      unfold models1Of
      rw [if_pos hcol]
      exact h1
    rw [search_gifts_eq, if_neg hc, hm, portalsPart_nil, tonnelPart_nil, List.append_nil,
      finalize_nil]

/-- Witness for C7: the empty index yields `ok []` for color red. -/
theorem empty_candidates_empty_result_witness :
    search_gifts [] (some "red") [] [] none none none (Except.ok []) errResp
      = Except.ok [] :=
  (empty_candidates_empty_result [] (some "red") [] [] none none none (Except.ok []) errResp
    (by decide)).1 rfl

/-! ### Claim C4 -/

/-- Claim C4: an adapter that raises on every call it makes contributes
zero records and no exception escapes: with Tonnel raising everywhere the
result is exactly Adapter A's validated contribution, price-filtered and
sorted; with Portals raising it is exactly Adapter B's.  (The `if` covers
the one non-`ok` outcome, the 400 response for a missing color.) -/
theorem adapter_failure_isolation (cache : ColorMap) (color : Option String)
    (collections backdrops : List String) (min_price max_price : Option ℚ)
    (sortArg : Option String) (presp : Except Unit (List PortalsRaw))
    (tresp : String → Except Unit (List TonnelRaw)) :
    ((∀ c, tresp c = Except.error ()) →
      search_gifts cache color collections backdrops min_price max_price sortArg presp tresp =
        if color.getD "" = "" then Except.error "Color parameter is required"
        else Except.ok (finalize min_price max_price (sortArg.getD "price_asc")
          (portalsPart presp (models1Of cache (color.getD "") collections))))
    ∧ (presp = Except.error () →
      search_gifts cache color collections backdrops min_price max_price sortArg presp tresp =
        if color.getD "" = "" then Except.error "Color parameter is required"
        else Except.ok (finalize min_price max_price (sortArg.getD "price_asc")
          (tonnelPart tresp collections (models1Of cache (color.getD "") collections)))) := by
  constructor
  · intro h
    rw [search_gifts_eq]
    by_cases hc : color.getD "" = ""
    · rw [if_pos hc, if_pos hc]
    · rw [if_neg hc, if_neg hc]
      have ht : tonnelPart tresp collections (models1Of cache (color.getD "") collections)
          = [] := by
        unfold tonnelPart
        exact tonnelFetch_error h _
      rw [ht, List.append_nil]
  · intro h
    subst h
    rw [search_gifts_eq]
    by_cases hc : color.getD "" = ""
    · rw [if_pos hc, if_pos hc]
    · rw [if_neg hc, if_neg hc]
      have hp : portalsPart (Except.error ())
          (models1Of cache (color.getD "") collections) = [] := rfl
      rw [hp, List.nil_append]

/-- Witness for C4: with every Tonnel call raising, the concrete search
result is Adapter A's validated contribution, filtered and sorted. -/
theorem adapter_failure_isolation_witness :
    search_gifts exCache (some "red") [] [] none none none (Except.ok [exPortalsA]) errResp =
      if (some "red").getD "" = "" then Except.error "Color parameter is required"
      else Except.ok (finalize none none ((none : Option String).getD "price_asc")
        (portalsPart (Except.ok [exPortalsA]) (models1Of exCache "red" []))) :=
  (adapter_failure_isolation exCache (some "red") [] [] none none none
    (Except.ok [exPortalsA]) errResp).1 (fun _ => rfl)

/-! ### Claim C1 -/

/-- A Tonnel adapter that answers every call with the one record
`exTonnelB`. -/
def okResp : String → Except Unit (List TonnelRaw) := fun _ => Except.ok [exTonnelB]

/-- Claim C1: every gift returned for color `C` corresponds to a
`(collection, model)` pair `pr` that is a member of `ColorIndex[C]` and,
when a non-empty collections filter was supplied, whose collection lies in
the filter.  The pair is pinned per source: for a Portals gift it is
`(record name, model attribute)` (`pr.1 = g.name`, `pr.2 = g.model`); for
a Tonnel gift its collection `pr.1` is the very collection that was
queried — among `collections_to_search`, with `tresp pr.1` succeeding and
containing the raw record the gift was formatted from — and `pr.2` is the
model text before `" ("` of that raw record (`= g.model`).  This holds for
every possible adapter response (`presp`, `tresp` universally quantified):
it is enforced by the pipeline's own membership checks. -/
theorem search_respects_color_index (cache : ColorMap) (color : Option String)
    (collections backdrops : List String) (min_price max_price : Option ℚ)
    (sortArg : Option String) (presp : Except Unit (List PortalsRaw))
    (tresp : String → Except Unit (List TonnelRaw)) (gs : List Gift) (g : Gift)
    (hok : search_gifts cache color collections backdrops min_price max_price sortArg presp
      tresp = Except.ok gs) (hg : g ∈ gs) :
    ∃ pr, pr ∈ mapGetD cache (color.getD "") [] ∧ pr.2 = g.model ∧
      (collections ≠ [] → pr.1 ∈ collections) ∧
      ((g.source = "portals" ∧ pr.1 = g.name) ∨
        (g.source = "tonnel" ∧
          pr.1 ∈ collections_to_search collections
            (models1Of cache (color.getD "") collections) ∧
          ∃ res raw, tresp pr.1 = Except.ok res ∧ raw ∈ res ∧
            g = format_tonnel_gift raw ∧ pr.2 = modelBase raw.model)) := by
  rw [search_gifts_eq] at hok
  by_cases hc : color.getD "" = ""
  · rw [if_pos hc] at hok
    exact absurd hok (by simp)
  · rw [if_neg hc] at hok
    injection hok with hok
    subst hok
    rw [mem_finalize_iff] at hg
    have hg' := (mem_priceFilter_iff.mp hg).1
    rcases List.mem_append.mp hg' with hp | ht
    · obtain ⟨pr, hpr, h1, h2, h3⟩ := mem_portalsPart hp
      obtain ⟨hidx, hcolf⟩ := mem_models1Of hpr
      exact ⟨pr, hidx, h2, hcolf, Or.inl ⟨h3, h1⟩⟩
    · obtain ⟨qc, res, raw, hqc, hres, hraw, hfmt, hpair⟩ := mem_tonnelPart ht
      obtain ⟨hidx, hcolf⟩ := mem_models1Of hpair
      refine ⟨(qc, modelBase raw.model), hidx, ?_, hcolf,
        Or.inr ⟨?_, hqc, res, raw, hres, hraw, hfmt, rfl⟩⟩
      · rw [hfmt]
        rfl
      · rw [hfmt]
        rfl

/-- Witness for C1 on a concrete accepted Tonnel gift: the pair is
`("B", "m2")` — the queried collection `B` together with the parsed
model. -/
theorem search_respects_color_index_witness :
    ∃ pr, pr ∈ mapGetD exCache "red" [] ∧ pr.2 = (format_tonnel_gift exTonnelB).model ∧
      (([] : List String) ≠ [] → pr.1 ∈ ([] : List String)) ∧
      (((format_tonnel_gift exTonnelB).source = "portals" ∧
          pr.1 = (format_tonnel_gift exTonnelB).name) ∨
        ((format_tonnel_gift exTonnelB).source = "tonnel" ∧
          pr.1 ∈ collections_to_search [] (models1Of exCache "red" []) ∧
          ∃ res raw, okResp pr.1 = Except.ok res ∧ raw ∈ res ∧
            format_tonnel_gift exTonnelB = format_tonnel_gift raw ∧
            pr.2 = modelBase raw.model)) :=
  search_respects_color_index exCache (some "red") [] [] none none none
    (Except.error ()) okResp [format_tonnel_gift exTonnelB]
    (format_tonnel_gift exTonnelB) rfl (List.mem_singleton.mpr rfl)

/-! ### Claim C3 -/

/-- A Tonnel adapter raising for collection `A` but healthy for `B`. -/
def trespAErr : String → Except Unit (List TonnelRaw) :=
  fun c => if c = "B" then Except.ok [exTonnelB] else Except.error ()

/-- The same adapter with the `A` call succeeding (empty result). -/
def trespAOk : String → Except Unit (List TonnelRaw) :=
  fun c => if c = "B" then Except.ok [exTonnelB] else Except.ok []

/-- Claim C3, refuted: the `try` wraps the whole Tonnel loop, so an error
on collection `A`'s call aborts the loop and collection `B` — queried
after `A` — is never reached: its acceptable record is missing from the
result, although the very same request with a healthy `A` call returns
it. -/
theorem tonnel_per_collection_isolation_counterexample :
    search_gifts exCache (some "red") [] [] none none none (Except.error ()) trespAErr
      = Except.ok []
    ∧ search_gifts exCache (some "red") [] [] none none none (Except.error ()) trespAOk
      = Except.ok [format_tonnel_gift exTonnelB] :=
  ⟨rfl, rfl⟩

/-- Claim C3 (amended): an error on one collection's Tonnel call aborts
the remaining per-collection calls: gifts accepted for collections
iterated before the failing one are kept, and every collection after it
(and the failing one) contributes nothing — the fan-out result equals the
fan-out over the successful preceding collections alone. -/
theorem tonnel_per_collection_isolation_amended (pairs : List (String × String))
    (tresp : String → Except Unit (List TonnelRaw)) :
    ∀ (pre : List String) (name : String) (rest : List String),
      (∀ c ∈ pre, (pairs.filter (fun m => decide (m.1 = c))).map Prod.snd ≠ [] →
        ∃ l, tresp c = Except.ok l) →
      (pairs.filter (fun m => decide (m.1 = name))).map Prod.snd ≠ [] →
      tresp name = Except.error () →
      tonnelFetch pairs tresp (pre ++ name :: rest) = tonnelFetch pairs tresp pre
  | [], name, rest, _, hname, herr => by
    simp only [List.nil_append, tonnelFetch]
    rw [if_neg hname, herr]
  | c :: pre, name, rest, hpre, hname, herr => by
    simp only [List.cons_append, tonnelFetch]
    by_cases hcm : (pairs.filter (fun m => decide (m.1 = c))).map Prod.snd = []
    · rw [if_pos hcm, if_pos hcm]
      exact tonnel_per_collection_isolation_amended pairs tresp pre name rest
        (fun c' hc' => hpre c' (List.mem_cons_of_mem _ hc')) hname herr
    · rw [if_neg hcm, if_neg hcm]
      obtain ⟨l, hl⟩ := hpre c (List.mem_cons_self _ _) hcm
      rw [hl]
      simp only [List.append_eq]
      rw [tonnel_per_collection_isolation_amended pairs tresp pre name rest
          (fun c' hc' => hpre c' (List.mem_cons_of_mem _ hc')) hname herr]

/-- Witness for the amended C3: with `B` healthy before a failing `A`,
the failing call cuts the loop exactly after `B`'s contribution. -/
theorem tonnel_per_collection_isolation_amended_witness :
    tonnelFetch [("A", "m1"), ("B", "m2")] trespAErr (["B"] ++ "A" :: [])
      = tonnelFetch [("A", "m1"), ("B", "m2")] trespAErr ["B"] :=
  tonnel_per_collection_isolation_amended [("A", "m1"), ("B", "m2")] trespAErr ["B"] "A" []
    (fun c hc _ => by
      rw [List.mem_singleton] at hc
      subst hc
      exact ⟨[exTonnelB], rfl⟩)
    (by decide) rfl

/-! ### Claim C8 -/

/-- Claim C8: every returned gift respects the supplied inclusive price
bounds, and nothing else is dropped by the price stage: any merged,
validated gift satisfying the supplied bounds is in the result (an
unsupplied bound filters nothing). -/
theorem search_price_bounds (cache : ColorMap) (color : Option String)
    (collections backdrops : List String) (min_price max_price : Option ℚ)
    (sortArg : Option String) (presp : Except Unit (List PortalsRaw))
    (tresp : String → Except Unit (List TonnelRaw)) (gs : List Gift)
    (hok : search_gifts cache color collections backdrops min_price max_price sortArg presp
      tresp = Except.ok gs) :
    (∀ g ∈ gs, (∀ m, min_price = some m → m ≤ g.price)
      ∧ (∀ m, max_price = some m → g.price ≤ m))
    ∧ (∀ g, g ∈ portalsPart presp (models1Of cache (color.getD "") collections)
          ++ tonnelPart tresp collections (models1Of cache (color.getD "") collections) →
        (∀ m, min_price = some m → m ≤ g.price) →
        (∀ m, max_price = some m → g.price ≤ m) → g ∈ gs) := by
  rw [search_gifts_eq] at hok
  by_cases hc : color.getD "" = ""
  · rw [if_pos hc] at hok
    exact absurd hok (by simp)
  · rw [if_neg hc] at hok
    injection hok with hok
    subst hok
    constructor
    · intro g hg
      rw [mem_finalize_iff] at hg
      exact (mem_priceFilter_iff.mp hg).2
    · intro g hmem hmin hmax
      rw [mem_finalize_iff]
      exact mem_priceFilter_iff.mpr ⟨hmem, hmin, hmax⟩

/-- Witness for C8: with bounds `[4, 6]` the price-3 record is dropped and
the price-5 record is kept and satisfies both bounds. -/
theorem search_price_bounds_witness :
    ((4 : ℚ) ≤ (format_portals_gift exPortalsA).price
      ∧ (format_portals_gift exPortalsA).price ≤ 6)
    ∧ format_portals_gift exPortalsA ∈ [format_portals_gift exPortalsA] := by
  have h := search_price_bounds exCache (some "red") [] [] (some 4) (some 6) none
    (Except.ok [exPortalsA, exPortalsB]) errResp [format_portals_gift exPortalsA] rfl
  have h1 := h.1 (format_portals_gift exPortalsA) (List.mem_singleton.mpr rfl)
  have h2 := h.2 (format_portals_gift exPortalsA)
    (by
      apply List.mem_append_left
      exact List.mem_map_of_mem format_portals_gift (by decide))
    (fun m hm => by cases hm; decide) (fun m hm => by cases hm; decide)
  exact ⟨⟨h1.1 4 rfl, h1.2 6 rfl⟩, h2⟩

/-! ### Claims C9 and C10 -/

theorem finalize_asc (min_price max_price : Option ℚ) (gs : List Gift) :
    finalize min_price max_price "price_asc" gs
      = List.insertionSort priceLe (priceFilter min_price max_price gs) := rfl

theorem finalize_desc (min_price max_price : Option ℚ) (gs : List Gift) :
    finalize min_price max_price "price_desc" gs
      = List.insertionSort priceGe (priceFilter min_price max_price gs) := rfl

theorem finalize_other (min_price max_price : Option ℚ) (sort : String) (gs : List Gift)
    (h1 : sort ≠ "price_asc") (h2 : sort ≠ "price_desc") :
    finalize min_price max_price sort gs = priceFilter min_price max_price gs := by
  unfold finalize
  rw [if_neg h1, if_neg h2]

/-- Claim C9: `sort=price_asc` (also the default when the parameter is
absent) returns non-decreasing prices, `sort=price_desc` non-increasing,
and in both cases gifts of equal price keep their merge order: for every
price `p`, restricting the output to price `p` gives exactly the
price-filtered merged list (Portals records first, then Tonnel records)
restricted to price `p`. -/
theorem search_sort_correct (cache : ColorMap) (color : Option String)
    (collections backdrops : List String) (min_price max_price : Option ℚ)
    (sortArg : Option String) (presp : Except Unit (List PortalsRaw))
    (tresp : String → Except Unit (List TonnelRaw)) (gs : List Gift)
    (hok : search_gifts cache color collections backdrops min_price max_price sortArg presp
      tresp = Except.ok gs) :
    ((sortArg = some "price_asc" ∨ sortArg = none) →
      gs.Pairwise priceLe ∧ ∀ p : ℚ, gs.filter (fun g => decide (g.price = p)) =
        (priceFilter min_price max_price
          (portalsPart presp (models1Of cache (color.getD "") collections)
            ++ tonnelPart tresp collections
              (models1Of cache (color.getD "") collections))).filter
          (fun g => decide (g.price = p)))
    ∧ (sortArg = some "price_desc" →
      gs.Pairwise priceGe ∧ ∀ p : ℚ, gs.filter (fun g => decide (g.price = p)) =
        (priceFilter min_price max_price
          (portalsPart presp (models1Of cache (color.getD "") collections)
            ++ tonnelPart tresp collections
              (models1Of cache (color.getD "") collections))).filter
          (fun g => decide (g.price = p))) := by
  rw [search_gifts_eq] at hok
  by_cases hc : color.getD "" = ""
  · rw [if_pos hc] at hok
    exact absurd hok (by simp)
  · rw [if_neg hc] at hok
    injection hok with hok
    subst hok
    constructor
    · intro hs
      have hsort : sortArg.getD "price_asc" = "price_asc" := by
        rcases hs with hs | hs <;> rw [hs] <;> rfl
      rw [hsort, finalize_asc]
      refine ⟨List.sorted_insertionSort priceLe _, fun p => ?_⟩
      exact filter_insertionSort priceLe Gift.price (fun a b h => le_of_eq h) p _
    · intro hs
      rw [hs]
      have hsort : (some "price_desc").getD "price_asc" = "price_desc" := rfl
      rw [hsort, finalize_desc]
      refine ⟨List.sorted_insertionSort priceGe _, fun p => ?_⟩
      exact filter_insertionSort priceGe Gift.price (fun a b h => le_of_eq h.symm) p _

/-- Witness for C9: ascending sort of the two concrete Portals gifts
(prices 5 and 3) is non-decreasing, and the price-5 tie class matches the
pre-sort merged list. -/
theorem search_sort_correct_witness :
    List.Pairwise priceLe [format_portals_gift exPortalsB, format_portals_gift exPortalsA]
    ∧ [format_portals_gift exPortalsB, format_portals_gift exPortalsA].filter
        (fun g => decide (g.price = 5)) =
      (priceFilter none none
        (portalsPart (Except.ok [exPortalsA, exPortalsB]) (models1Of exCache "red" [])
          ++ tonnelPart errResp [] (models1Of exCache "red" []))).filter
        (fun g => decide (g.price = 5)) := by
  have h := (search_sort_correct exCache (some "red") [] [] none none none
    (Except.ok [exPortalsA, exPortalsB]) errResp
    [format_portals_gift exPortalsB, format_portals_gift exPortalsA] rfl).1 (Or.inr rfl)
  exact ⟨h.1, h.2 5⟩

/-- Claim C10: a present `sort` value that is neither `price_asc` nor
`price_desc` applies no sorting at all: the result is the merged,
price-filtered sequence in merge order (Portals records first, then
Tonnel records, each in adapter-response order). -/
theorem search_unknown_sort_preserves_merge_order (cache : ColorMap) (color : Option String)
    (collections backdrops : List String) (min_price max_price : Option ℚ) (s : String)
    (presp : Except Unit (List PortalsRaw)) (tresp : String → Except Unit (List TonnelRaw))
    (gs : List Gift) (hs1 : s ≠ "price_asc") (hs2 : s ≠ "price_desc")
    (hok : search_gifts cache color collections backdrops min_price max_price (some s) presp
      tresp = Except.ok gs) :
    gs = priceFilter min_price max_price
      (portalsPart presp (models1Of cache (color.getD "") collections)
        ++ tonnelPart tresp collections (models1Of cache (color.getD "") collections)) := by
  rw [search_gifts_eq] at hok
  by_cases hc : color.getD "" = ""
  · rw [if_pos hc] at hok
    exact absurd hok (by simp)
  · rw [if_neg hc] at hok
    injection hok with hok
    rw [← hok]
    exact finalize_other min_price max_price s _ hs1 hs2

/-- Witness for C10 at `sort=foo`: the result is the unsorted merged,
price-filtered list (here in response order, price 5 before price 3). -/
theorem search_unknown_sort_preserves_merge_order_witness :
    [format_portals_gift exPortalsA, format_portals_gift exPortalsB] = priceFilter none none
      (portalsPart (Except.ok [exPortalsA, exPortalsB]) (models1Of exCache "red" [])
        ++ tonnelPart errResp [] (models1Of exCache "red" [])) :=
  search_unknown_sort_preserves_merge_order exCache (some "red") [] [] none none "foo"
    (Except.ok [exPortalsA, exPortalsB]) errResp
    [format_portals_gift exPortalsA, format_portals_gift exPortalsB]
    (by decide) (by decide) rfl

end ColorGifts
